import Mathlib

/-!
Verification of the `hostendpointscontroller` reconciliation core
(`pkg/operator/hostendpointscontroller/host_endpoints_controller.go`).

The Go controller is shallowly embedded: every external collaborator
(listers, the endpoints client, DNS, the status writer) is an oracle
field of a dependency record, and each controller function becomes a
pure Lean function of those oracles.  Machine effects that matter to
the claims are made explicit:

* early `return err` paths become `Except`/`GoResult` error values;
* the two runtime faults reachable in the source (indexing
  `existing.Subsets[0]` on an empty slice, and dereferencing a nil
  `NodeName` pointer inside the sort comparator) become the
  `GoResult.panic` outcome, resp. a `none` result of the comparator;
* store writes (`Create`/`Update`) and operator-status writes are
  returned as explicit lists, so "no write happened" is a provable
  statement.

Event-recorder calls are observability only and are not modelled.
The k8s `EndpointAddress` is modelled with the three fields this
controller reads and writes (`IP`, `Hostname`, `NodeName`); `sort.Slice`
is modelled as insertion sort - on inputs where the comparator is
defined for every compared pair this fixes the same unique sorted
order the source computes, since comparator-ties imply equality of
the record.
-/

/-- Go `error` values as this controller distinguishes them: the k8s
not-found error (tested via `errors.IsNotFound`) versus any other
error with a message (`fmt.Errorf`). -/
inductive GoError where
  | notFound : GoError
  | msg : String → GoError
deriving DecidableEq, Repr

/-- `err.Error()`: the text of the error, used by `fmt.Errorf` wrapping
and by the degraded-condition message. -/
def GoError.text : GoError → String
  | .notFound => "not found"
  | .msg s => s

/-- `errors.IsNotFound` from k8s apimachinery. -/
def IsNotFound : GoError → Bool
  | .notFound => true
  | .msg _ => false

/-- Outcome of running a Go function: normal return, error return, or a
runtime panic. -/
inductive GoResult (α : Type) where
  | ok : α → GoResult α
  | err : GoError → GoResult α
  | panic : String → GoResult α
deriving DecidableEq, Repr

/-- `corev1.EndpointAddress`, restricted to the fields this controller
constructs and compares.  `NodeName` is a `*string` in Go; `none`
models a nil pointer (bootstrap entries). -/
structure EndpointAddress where
  IP : String
  Hostname : String
  NodeName : Option String
deriving DecidableEq, Repr

/-- `corev1.EndpointPort`. -/
structure EndpointPort where
  Name : String
  Port : Int
  Protocol : String
deriving DecidableEq, Repr

/-- `corev1.EndpointSubset`. -/
structure EndpointSubset where
  Addresses : List EndpointAddress
  NotReadyAddresses : List EndpointAddress
  Ports : List EndpointPort
deriving DecidableEq, Repr

/-- `metav1.ObjectMeta`, restricted to the fields touched here.  Go
string-keyed maps are modelled as association lists. -/
structure ObjectMeta where
  Name : String
  Namespace : String
  Annotations : List (String × String)
  Labels : List (String × String)
deriving DecidableEq, Repr

/-- `corev1.Endpoints`. -/
structure Endpoints where
  metadata : ObjectMeta
  Subsets : List EndpointSubset
deriving DecidableEq, Repr

/-- A `net.SRV` record; only `Target` is read by the controller. -/
structure SRV where
  Target : String
deriving DecidableEq, Repr

/-- `corev1.Node`, restricted to the only field this controller reads
directly (`node.Name`); the role-label selector is part of the node
lister oracle and the remaining fields are only consumed by the
internal-IP oracle. -/
structure Node where
  Name : String
deriving DecidableEq, Repr

/-- The cluster `Network` configuration object: opaque here, it is only
passed through to the preferred-internal-IP oracle. -/
structure Network where
  dummy : Unit
deriving DecidableEq, Repr

/-- `infrastructure.Status`, restricted to `EtcdDiscoveryDomain`. -/
structure InfrastructureStatus where
  EtcdDiscoveryDomain : String
deriving DecidableEq, Repr

/-- `configv1.Infrastructure`. -/
structure Infrastructure where
  Status : InfrastructureStatus
deriving DecidableEq, Repr

/-- `operatorv1.OperatorCondition` as written by `v1helpers.UpdateConditionFn`. -/
structure OperatorCondition where
  CondType : String
  Status : String
  Reason : String
  Message : String
deriving DecidableEq, Repr

/-- A write performed against the endpoints store. -/
inductive WriteOp where
  | create : Endpoints → WriteOp
  | update : Endpoints → WriteOp
deriving DecidableEq, Repr

/-- Modelled from the spec: `operatorclient.TargetNamespace` (repository
code not under `src/`); the spec fixes only that a single target
namespace exists, its concrete value is irrelevant to every claim. -/
def TargetNamespace : String := "openshift-etcd"

/-- `strings.TrimSuffix`. -/
def trimSuffix (s suf : String) : String :=
  if suf.toList.isSuffixOf s.toList then
    String.mk ((s.toList.reverse.drop suf.toList.length).reverse)
  else s

/-- `strings.Trim(s, ".")`: strips leading and trailing dots. -/
def trimDots (s : String) : String :=
  String.mk (((s.toList.dropWhile (· == '.')).reverse.dropWhile (· == '.')).reverse)

/-- Go map assignment `m[k] = v` on an association-list map. -/
def setMapEntry (m : List (String × String)) (k v : String) : List (String × String) :=
  if m.any (fun p => p.1 == k) then m.map (fun p => if p.1 == k then (k, v) else p)
  else m ++ [(k, v)]

/-- Merge every entry of `src` into `dst` (`dst` keys not in `src` are kept). -/
def mergeMapEntries (dst src : List (String × String)) : List (String × String) :=
  src.foldl (fun acc p => setMapEntry acc p.1 p.2) dst

/-- Modelled from the spec: `resourcemerge.EnsureObjectMeta` (library-go,
not part of this repository's `src/`) - "copy required's
annotations/labels onto existing's metadata additively - only keys
present in `required` are set/overwritten; unrelated existing metadata
keys are preserved.  Any metadata change sets `changed = true`."
Returns the merged metadata together with the `*modified` flag. -/
def EnsureObjectMeta (existingMeta requiredMeta : ObjectMeta) : ObjectMeta × Bool :=
  let merged := { existingMeta with
    Annotations := mergeMapEntries existingMeta.Annotations requiredMeta.Annotations
    Labels := mergeMapEntries existingMeta.Labels requiredMeta.Labels }
  (merged, decide (merged ≠ existingMeta))

/-- `hostEndpointsAsset()`: the required `host-etcd` Endpoints skeleton. -/
def hostEndpointsAsset : Endpoints :=
  { metadata :=
      { Name := "host-etcd"
        Namespace := TargetNamespace
        Annotations := []
        Labels := [] }
    Subsets :=
      [ { Addresses := []
          NotReadyAddresses := []
          Ports := [{ Name := "etcd", Port := 2379, Protocol := "TCP" }] } ] }

/-- The closure returned by `newEndpointAddressSliceComparator`, applied
to a pair of addresses.  A `none` result is the nil-pointer dereference
`*NodeName` performed in the `default:` tie-break case when either
`NodeName` pointer is nil. -/
def endpointAddressLessGo (a b : EndpointAddress) : Option Bool :=
  if a.IP ≠ b.IP then some (decide (a.IP < b.IP))
  else if a.Hostname ≠ b.Hostname then some (decide (a.Hostname < b.Hostname))
  else
    match a.NodeName, b.NodeName with
    | some x, some y => some (decide (x < y))
    | _, _ => none

/-- One insertion step of the modelled `sort.Slice`: insert `a` into the
already-sorted list, propagating a comparator panic as `none`. -/
def orderedInsertGo (a : EndpointAddress) : List EndpointAddress → Option (List EndpointAddress)
  | [] => some [a]
  | b :: bs =>
    match endpointAddressLessGo b a with
    | none => none
    | some true => (orderedInsertGo a bs).map (b :: ·)
    | some false => some (a :: b :: bs)

/-- The `sort.Slice(...)` call of `endpointSubsetEqual`, modelled as
insertion sort over `endpointAddressLessGo`. -/
def sortAddressesGo : List EndpointAddress → Option (List EndpointAddress)
  | [] => some []
  | a :: as_ =>
    match sortAddressesGo as_ with
    | none => none
    | some sorted => orderedInsertGo a sorted

/-- `endpointSubsetEqual`: length checks on addresses, not-ready
addresses and ports, then `reflect.DeepEqual` of the two sorted copies
of the address lists.  `none` models the comparator panic. -/
def endpointSubsetEqualGo (lhs rhs : EndpointSubset) : Option Bool :=
  if lhs.Addresses.length ≠ rhs.Addresses.length then some false
  else if lhs.NotReadyAddresses.length ≠ rhs.NotReadyAddresses.length then some false
  else if lhs.Ports.length ≠ rhs.Ports.length then some false
  else
    match sortAddressesGo lhs.Addresses, sortAddressesGo rhs.Addresses with
    | some l, some r => some (decide (l = r))
    | _, _ => none

/-- The element-wise loop of `endpointsSubsetsEqual` (lengths already
known equal). -/
def subsetsEqualLoop : List EndpointSubset → List EndpointSubset → Option Bool
  | [], _ => some true
  | _, [] => some true
  | l :: ls, r :: rs =>
    match endpointSubsetEqualGo l r with
    | none => none
    | some false => some false
    | some true => subsetsEqualLoop ls rs

/-- `endpointsSubsetsEqual`. -/
def endpointsSubsetsEqualGo (lhs rhs : List EndpointSubset) : Option Bool :=
  if lhs.length ≠ rhs.length then some false
  else subsetsEqualLoop lhs rhs

/-- The collaborators of `applyEndpoints`: the endpoints lister read and
the results the endpoints client would give for a create resp. update. -/
structure ApplyDeps where
  getExisting : Except GoError Endpoints
  createResult : Endpoints → Except GoError Endpoints
  updateResult : Endpoints → Except GoError Endpoints

/-- `applyEndpoints`.  Returns the Go outcome together with the list of
store writes attempted.  Note the faithful modelling of the shadowed
`err` in the not-found branch: the inner `_, err := ...Create(...)`
shadows the outer lister error, so after a *successful* create the
function still reaches `if err != nil` with the original not-found
error and returns it. -/
def applyEndpoints (adeps : ApplyDeps) (required : Endpoints) :
    GoResult Unit × List WriteOp :=
  match adeps.getExisting with
  | .error e =>
    if IsNotFound e then
      match adeps.createResult required with
      | .error createErr => (.err createErr, [.create required])
      | .ok _ => (.err e, [.create required])
    else (.err e, [])
  | .ok existing =>
    let mergeResult := EnsureObjectMeta existing.metadata required.metadata
    match endpointsSubsetsEqualGo existing.Subsets required.Subsets with
    | none => (.panic ("runtime error: invalid memory address or nil pointer dereference"), [])
    | some subsetsEq =>
      let modified := if subsetsEq then mergeResult.2 else true
      if modified = false then (.ok (), [])
      else
        let toWrite : Endpoints :=
          { metadata := mergeResult.1
            Subsets := if subsetsEq then existing.Subsets else required.Subsets }
        match adeps.updateResult toWrite with
        | .error e => (.err e, [.update toWrite])
        | .ok _ => (.ok (), [.update toWrite])

/-- All collaborators of the controller's sync path.  Each lister/client
call site is one oracle value; the DNS functions `net.LookupSRV` and
`net.LookupHost` are oracle functions. -/
structure SyncDeps where
  getEndpoints : Except GoError Endpoints
  getInfrastructure : Except GoError Infrastructure
  getNetwork : Except GoError Network
  listMasterNodes : Except GoError (List Node)
  getPreferredInternalIP : Network → Node → Except GoError String
  lookupSRV : String → String → String → Except GoError (List SRV)
  lookupHost : String → Except GoError (List String)
  applyDeps : ApplyDeps
  updateStatus : OperatorCondition → Except GoError Unit

/-- `getEtcdDiscoveryDomain`. -/
def getEtcdDiscoveryDomain (deps : SyncDeps) : Except GoError String :=
  match deps.getInfrastructure with
  | .error e => .error e
  | .ok infrastructure =>
    if infrastructure.Status.EtcdDiscoveryDomain.length = 0 then
      .error (.msg ("infrastructures.config.openshit.io/cluster missing .status.etcdDiscoveryDomain"))
    else .ok infrastructure.Status.EtcdDiscoveryDomain

/-- The SRV-target loop of `reverseLookup`: every target is forward
resolved; a failing forward lookup aborts; a target whose addresses
contain `ip` overwrites `selfTarget` (so the *last* matching target
wins), with its surrounding dots trimmed. -/
def reverseLookupLoop (lookupHost : String → Except GoError (List String)) (ip : String) :
    List SRV → String → Except GoError String
  | [], selfTarget => .ok selfTarget
  | srv :: rest, selfTarget =>
    match lookupHost srv.Target with
    | .error _ => .error (.msg ("could not resolve member \"" ++ srv.Target ++ "\""))
    | .ok addrs =>
      reverseLookupLoop lookupHost ip rest
        (if addrs.contains ip then trimDots srv.Target else selfTarget)

/-- `reverseLookup`: the SRV target that forward-resolves to `ip`. -/
def reverseLookup (lookupSRV : String → String → String → Except GoError (List SRV))
    (lookupHost : String → Except GoError (List String))
    (service proto name ip : String) : Except GoError String :=
  match lookupSRV service proto name with
  | .error e => .error e
  | .ok srvs =>
    match reverseLookupLoop lookupHost ip srvs "" with
    | .error e => .error e
    | .ok selfTarget =>
      if selfTarget = "" then .error (.msg ("could not find self")) else .ok selfTarget

/-- `getEtcdDNSName`. -/
def getEtcdDNSName (deps : SyncDeps) (discoveryDomain ip : String) : Except GoError String :=
  reverseLookup deps.lookupSRV deps.lookupHost "etcd-server-ssl" "tcp" discoveryDomain ip

/-- The per-node loop of `syncHostEndpoints` building one
`EndpointAddress` per master node (order preserving); the first failure
aborts the whole build. -/
def buildNodeAddresses (deps : SyncDeps) (network : Network) (discoveryDomain : String) :
    List Node → Except GoError (List EndpointAddress)
  | [] => .ok []
  | node :: rest =>
    match deps.getPreferredInternalIP network node with
    | .error e => .error e
    | .ok nodeInternalIP =>
      if nodeInternalIP.length = 0 then
        .error (.msg ("unable to determine internal ip address for node " ++ node.Name))
      else
        match getEtcdDNSName deps discoveryDomain nodeInternalIP with
        | .error e =>
          .error (.msg ("unable to determine etcd member dns name for node " ++ node.Name
            ++ ": " ++ e.text))
        | .ok dnsName =>
          match buildNodeAddresses deps network discoveryDomain rest with
          | .error e => .error e
          | .ok restAddrs =>
            .ok ({ IP := nodeInternalIP
                   Hostname := trimSuffix dnsName ("." ++ discoveryDomain)
                   NodeName := some node.Name } :: restAddrs)

/-- Replace the address list of the first subset (`required.Subsets[0].Addresses = ...`).
`required` is always `hostEndpointsAsset`, which has exactly one subset,
so the empty case is unreachable on every call site. -/
def setFirstSubsetAddresses (e : Endpoints) (addrs : List EndpointAddress) : Endpoints :=
  match e.Subsets with
  | [] => e
  | s :: rest => { e with Subsets := { s with Addresses := addrs } :: rest }

/-- The builder stage of `syncHostEndpoints` (everything before the
`applyEndpoints` call): reads the existing object, the discovery domain,
the network config and the master nodes, resolves each node, carries the
`etcd-bootstrap` entry of `existing.Subsets[0]` forward, and fails if the
resulting address list is empty.  Indexing `existing.Subsets[0]` on an
empty `Subsets` slice is the out-of-range panic of the source. -/
def syncHostEndpointsBuild (deps : SyncDeps) : GoResult Endpoints :=
  match deps.getEndpoints with
  | .error e => .err e
  | .ok existing =>
    match getEtcdDiscoveryDomain deps with
    | .error e => .err (.msg ("unable to determine etcd discovery domain: " ++ e.text))
    | .ok discoveryDomain =>
      let required := hostEndpointsAsset
      let required := { required with metadata := { required.metadata with
        Annotations := setMapEntry required.metadata.Annotations
          "alpha.installer.openshift.io/dns-suffix" discoveryDomain } }
      match deps.getNetwork with
      | .error e => .err e
      | .ok network =>
        match deps.listMasterNodes with
        | .error e => .err (.msg ("unable to list expected etcd member nodes: " ++ e.text))
        | .ok nodes =>
          match buildNodeAddresses deps network discoveryDomain nodes with
          | .error e => .err e
          | .ok nodeAddrs =>
            match existing.Subsets with
            | [] => .panic ("runtime error: index out of range [0] with length 0")
            | firstSubset :: _ =>
              let endpointAddresses :=
                match firstSubset.Addresses.find? (fun a => a.Hostname == "etcd-bootstrap") with
                | some bootstrap => nodeAddrs ++ [bootstrap]
                | none => nodeAddrs
              if endpointAddresses.length = 0 then
                .err (.msg ("no etcd member nodes are ready"))
              else .ok (setFirstSubsetAddresses required endpointAddresses)

/-- `syncHostEndpoints` = builder stage, then `applyEndpoints`. -/
def syncHostEndpoints (deps : SyncDeps) : GoResult Unit × List WriteOp :=
  match syncHostEndpointsBuild deps with
  | .err e => (.err e, [])
  | .panic m => (.panic m, [])
  | .ok required => applyEndpoints deps.applyDeps required

/-- The degraded condition written when `syncHostEndpoints` fails. -/
def degradedCondition (e : GoError) : OperatorCondition :=
  { CondType := "HostEndpointsDegraded"
    Status := "True"
    Reason := "ErrorUpdatingHostEndpoints"
    Message := e.text }

/-- The healthy condition written when `syncHostEndpoints` succeeds. -/
def healthyCondition : OperatorCondition :=
  { CondType := "HostEndpointsDegraded"
    Status := "False"
    Reason := "HostEndpointsUpdated"
    Message := "" }

/-- `sync`: runs `syncHostEndpoints` and reports the outcome.  On
failure the degraded status write is attempted and its own failure is
only warned about (the original error is returned).  On success the
healthy status write is attempted and - in the source - its failure IS
returned to the caller.  The middle component lists the status
conditions whose write was attempted. -/
def sync (deps : SyncDeps) : GoResult Unit × List OperatorCondition × List WriteOp :=
  match syncHostEndpoints deps with
  | (.err e, writes) => (.err e, [degradedCondition e], writes)
  | (.panic m, writes) => (.panic m, [], writes)
  | (.ok _, writes) =>
    match deps.updateStatus healthyCondition with
    | .error updateErr => (.err updateErr, [healthyCondition], writes)
    | .ok _ => (.ok (), [healthyCondition], writes)

/-! ### Order theory for the address comparator

The Go comparator orders addresses by the tuple (IP, Hostname,
NodeName).  We package that tuple as a lexicographic key; because the
modelled record consists of exactly those fields, comparator ties imply
equality, which is what makes "sort both copies, then DeepEqual"
order-independent. -/

/-- Encode the `NodeName` pointer for the total key: nil sorts first;
the encoding is injective. -/
def nodeNameKey : Option String → Bool × String
  | none => (false, "")
  | some s => (true, s)

/-- The total lexicographic sort key of an address. -/
def addrKey (a : EndpointAddress) : String ×ₗ (String ×ₗ (Bool ×ₗ String)) :=
  toLex (a.IP, toLex (a.Hostname, toLex (nodeNameKey a.NodeName)))

/-- The total order used to characterise the sorted result. -/
def addrLE (a b : EndpointAddress) : Prop := addrKey a ≤ addrKey b

instance : DecidableRel addrLE :=
  fun a b => inferInstanceAs (Decidable (addrKey a ≤ addrKey b))

instance : IsTotal EndpointAddress addrLE :=
  ⟨fun a b => le_total (addrKey a) (addrKey b)⟩

instance : IsTrans EndpointAddress addrLE :=
  ⟨fun _ _ _ h1 h2 => le_trans h1 h2⟩

lemma nodeNameKey_inj {x y : Option String} (h : nodeNameKey x = nodeNameKey y) : x = y := by
  cases x <;> cases y <;> simp [nodeNameKey, Prod.ext_iff] at h <;> simp [h]

lemma addrKey_inj {a b : EndpointAddress} (h : addrKey a = addrKey b) : a = b := by
  unfold addrKey at h
  rw [toLex_inj, Prod.ext_iff] at h
  obtain ⟨hip, h⟩ := h
  rw [toLex_inj, Prod.ext_iff] at h
  obtain ⟨hhost, h⟩ := h
  rw [toLex_inj] at h
  have hnn := nodeNameKey_inj h
  cases a; cases b
  simp_all

instance : IsAntisymm EndpointAddress addrLE :=
  ⟨fun _ _ h1 h2 => addrKey_inj (le_antisymm h1 h2)⟩

lemma addrKey_lt_iff (a b : EndpointAddress) :
    addrKey a < addrKey b ↔
      a.IP < b.IP ∨ a.IP = b.IP ∧ (a.Hostname < b.Hostname ∨ a.Hostname = b.Hostname ∧
        toLex (nodeNameKey a.NodeName) < toLex (nodeNameKey b.NodeName)) := by
  unfold addrKey
  simp [Prod.Lex.lt_iff]

/-- Where the Go comparator is defined, it computes exactly the strict
order of the total key. -/
lemma lessGo_eq_key_of_defined {a b : EndpointAddress}
    (h : endpointAddressLessGo a b ≠ none) :
    endpointAddressLessGo a b = some (decide (addrKey a < addrKey b)) := by
  unfold endpointAddressLessGo at h ⊢
  by_cases hip : a.IP = b.IP
  · by_cases hhost : a.Hostname = b.Hostname
    · simp only [hip, hhost, ne_eq, not_true_eq_false, if_false, ite_self] at h ⊢
      cases hx : a.NodeName with
      | none => simp [hx] at h
      | some x =>
        cases hy : b.NodeName with
        | none => simp [hx, hy] at h
        | some y =>
          simp only [hx, hy]
          congr 1
          rw [decide_eq_decide, addrKey_lt_iff, hx, hy, hip, hhost]
          simp [Prod.Lex.lt_iff, nodeNameKey]
    · simp only [hip, ne_eq, not_true_eq_false, if_false, hhost, not_false_eq_true, if_true]
      congr 1
      rw [decide_eq_decide, addrKey_lt_iff, hip]
      simp [hhost]
  · simp only [ne_eq, hip, not_false_eq_true, if_true]
    congr 1
    rw [decide_eq_decide, addrKey_lt_iff]
    constructor
    · exact Or.inl
    · rintro (h1 | ⟨heq, _⟩)
      · exact h1
      · exact absurd heq hip

/-- Both directions of the Go comparator are defined on the pair. -/
def comparableAddrs (a b : EndpointAddress) : Prop :=
  endpointAddressLessGo a b ≠ none ∧ endpointAddressLessGo b a ≠ none

lemma comparableAddrs_of_noneShare {a b : EndpointAddress}
    (h : a.IP = b.IP → a.Hostname = b.Hostname → a.NodeName ≠ none ∧ b.NodeName ≠ none) :
    comparableAddrs a b := by
  constructor
  · unfold endpointAddressLessGo
    by_cases hip : a.IP = b.IP
    · by_cases hhost : a.Hostname = b.Hostname
      · obtain ⟨ha, hb⟩ := h hip hhost
        cases hx : a.NodeName with
        | none => exact absurd hx ha
        | some x =>
          cases hy : b.NodeName with
          | none => exact absurd hy hb
          | some y => simp [hip, hhost]
      · simp [hip, hhost]
    · simp [hip]
  · unfold endpointAddressLessGo
    by_cases hip : b.IP = a.IP
    · by_cases hhost : b.Hostname = a.Hostname
      · obtain ⟨ha, hb⟩ := h hip.symm hhost.symm
        cases hx : a.NodeName with
        | none => exact absurd hx ha
        | some x =>
          cases hy : b.NodeName with
          | none => exact absurd hy hb
          | some y => simp [hip, hhost]
      · simp [hip, hhost]
    · simp [hip]

/-- If every later element is comparable with `a`, the partial insertion
step succeeds and agrees with the total one. -/
lemma orderedInsertGo_eq (a : EndpointAddress) (l : List EndpointAddress)
    (hdef : ∀ b ∈ l, endpointAddressLessGo b a ≠ none) :
    orderedInsertGo a l = some (List.orderedInsert addrLE a l) := by
  induction l with
  | nil => rfl
  | cons b bs ih =>
    have hb : endpointAddressLessGo b a ≠ none := hdef b (List.mem_cons_self b bs)
    rw [orderedInsertGo, lessGo_eq_key_of_defined hb]
    by_cases hlt : addrKey b < addrKey a
    · rw [decide_eq_true hlt]
      have hr : ¬ addrLE a b := fun hle => absurd hlt (not_lt.mpr hle)
      rw [List.orderedInsert, if_neg hr, ih (fun c hc => hdef c (List.mem_cons_of_mem b hc))]
      rfl
    · rw [decide_eq_false hlt]
      have hr : addrLE a b := not_lt.mp hlt
      rw [List.orderedInsert, if_pos hr]

/-- On pairwise-comparable lists the modelled `sort.Slice` succeeds and
computes the insertion sort by the total key. -/
lemma sortAddressesGo_eq (l : List EndpointAddress) (h : l.Pairwise comparableAddrs) :
    sortAddressesGo l = some (List.insertionSort addrLE l) := by
  induction l with
  | nil => rfl
  | cons a as ih =>
    obtain ⟨ha, has⟩ := List.pairwise_cons.mp h
    rw [sortAddressesGo, ih has, List.insertionSort]
    apply orderedInsertGo_eq
    intro b hb
    exact (ha b ((List.mem_insertionSort addrLE).mp hb)).2

/-- Sorting by the total key is invariant under permutation. -/
lemma insertionSort_eq_of_perm {l m : List EndpointAddress} (h : l.Perm m) :
    List.insertionSort addrLE l = List.insertionSort addrLE m :=
  List.eq_of_perm_of_sorted
    ((List.perm_insertionSort addrLE l).trans (h.trans (List.perm_insertionSort addrLE m).symm))
    (List.sorted_insertionSort addrLE l) (List.sorted_insertionSort addrLE m)

/-! ### Helper lemmas about the diff/apply path -/

/-- When the metadata merge reports no change and the semantic subset
equality holds, `applyEndpoints` returns nil and performs no write. -/
lemma applyEndpoints_noWrite (adeps : ApplyDeps) (existing required : Endpoints)
    (hget : adeps.getExisting = .ok existing)
    (hmeta : (EnsureObjectMeta existing.metadata required.metadata).2 = false)
    (hsub : endpointsSubsetsEqualGo existing.Subsets required.Subsets = some true) :
    applyEndpoints adeps required = (.ok (), []) := by
  unfold applyEndpoints
  rw [hget]
  simp only [hsub, if_true, hmeta]

/-- A singleton subset list is semantically equal iff the subsets are. -/
lemma endpointsSubsetsEqualGo_singleton (lhs rhs : EndpointSubset)
    (h : endpointSubsetEqualGo lhs rhs = some true) :
    endpointsSubsetsEqualGo [lhs] [rhs] = some true := by
  unfold endpointsSubsetsEqualGo subsetsEqualLoop
  simp [h]
  rfl

/-- The well-definedness precondition of the address comparison: any
address whose `NodeName` pointer is nil is the only address of its list
with its (IP, Hostname) pair. -/
def nilNodeNameUnique (l : List EndpointAddress) : Prop :=
  ∀ a ∈ l, a.NodeName = none →
    l.countP (fun b => b.IP == a.IP && b.Hostname == a.Hostname) = 1

instance (l : List EndpointAddress) : Decidable (nilNodeNameUnique l) :=
  inferInstanceAs (Decidable (∀ a ∈ l, a.NodeName = none →
    l.countP (fun b => b.IP == a.IP && b.Hostname == a.Hostname) = 1))

lemma nilNodeNameUnique_tail {a : EndpointAddress} {as : List EndpointAddress}
    (h : nilNodeNameUnique (a :: as)) : nilNodeNameUnique as := by
  intro x hx hnx
  have h1 := h x (List.mem_cons_of_mem a hx) hnx
  have hle : as.countP (fun b => b.IP == x.IP && b.Hostname == x.Hostname) ≤
      (a :: as).countP (fun b => b.IP == x.IP && b.Hostname == x.Hostname) :=
    List.Sublist.countP_le _ (List.sublist_cons_self a as)
  have hpos : 0 < as.countP (fun b => b.IP == x.IP && b.Hostname == x.Hostname) :=
    List.countP_pos_iff.mpr ⟨x, hx, by simp⟩
  omega

lemma pairwise_comparable_of_nilUnique (l : List EndpointAddress)
    (h : nilNodeNameUnique l) : l.Pairwise comparableAddrs := by
  induction l with
  | nil => exact List.Pairwise.nil
  | cons a as ih =>
    refine List.Pairwise.cons ?_ (ih (nilNodeNameUnique_tail h))
    intro b hb
    apply comparableAddrs_of_noneShare
    intro hip hhost
    constructor
    · intro hna
      have h1 := h a (List.mem_cons_self a as) hna
      rw [List.countP_cons_of_pos _ _ (by simp)] at h1
      have hpos : 0 < as.countP (fun c => c.IP == a.IP && c.Hostname == a.Hostname) :=
        List.countP_pos_iff.mpr ⟨b, hb, by simp [hip.symm, hhost.symm]⟩
      omega
    · intro hnb
      have h1 := h b (List.mem_cons_of_mem a hb) hnb
      rw [List.countP_cons_of_pos _ _ (by simp [hip, hhost])] at h1
      have hpos : 0 < as.countP (fun c => c.IP == b.IP && c.Hostname == b.Hostname) :=
        List.countP_pos_iff.mpr ⟨b, hb, by simp⟩
      omega

/-- Order independence of the subset equality under the definedness
precondition. -/
lemma endpointSubsetEqualGo_of_perm (lhs rhs : EndpointSubset)
    (hperm : lhs.Addresses.Perm rhs.Addresses)
    (hnr : lhs.NotReadyAddresses.length = rhs.NotReadyAddresses.length)
    (hports : lhs.Ports.length = rhs.Ports.length)
    (huniq : nilNodeNameUnique lhs.Addresses) :
    endpointSubsetEqualGo lhs rhs = some true := by
  have huniqR : nilNodeNameUnique rhs.Addresses := by
    intro a ha hna
    rw [← hperm.countP_eq]
    exact huniq a (hperm.mem_iff.mpr ha) hna
  unfold endpointSubsetEqualGo
  rw [if_neg (by simp [hperm.length_eq]), if_neg (by simp [hnr]), if_neg (by simp [hports])]
  rw [sortAddressesGo_eq _ (pairwise_comparable_of_nilUnique _ huniq),
    sortAddressesGo_eq _ (pairwise_comparable_of_nilUnique _ huniqR),
    insertionSort_eq_of_perm hperm]
  simp

/-! ### Concrete objects used by witnesses and counterexamples -/

/-- A bootstrap-phase address: hostname `etcd-bootstrap`, nil `NodeName`. -/
def exBootAddr : EndpointAddress :=
  { IP := "192.0.2.9", Hostname := "etcd-bootstrap", NodeName := none }

def exPort : EndpointPort := { Name := "etcd", Port := 2379, Protocol := "TCP" }

def exSubsetBoot : EndpointSubset :=
  { Addresses := [exBootAddr], NotReadyAddresses := [], Ports := [exPort] }

/-- An already-published `host-etcd` object containing only the
bootstrap entry and the dns-suffix annotation. -/
def exExistingBoot : Endpoints :=
  { metadata :=
      { Name := "host-etcd"
        Namespace := TargetNamespace
        Annotations := [("alpha.installer.openshift.io/dns-suffix", "example.com")]
        Labels := [] }
    Subsets := [exSubsetBoot] }

def exApplyDepsOk : ApplyDeps :=
  { getExisting := .ok exExistingBoot
    createResult := fun e => .ok e
    updateResult := fun e => .ok e }

/-- Baseline collaborators: everything succeeds, zero master nodes, a
two-target SRV zone for `example.com`. -/
def exDepsBase : SyncDeps :=
  { getEndpoints := .ok exExistingBoot
    getInfrastructure := .ok { Status := { EtcdDiscoveryDomain := "example.com" } }
    getNetwork := .ok { dummy := () }
    listMasterNodes := .ok []
    getPreferredInternalIP := fun _ _ => .ok "10.0.0.1"
    lookupSRV := fun _ _ _ => .ok [{ Target := "a.example.com." }, { Target := "b.example.com." }]
    lookupHost := fun t =>
      if t = "a.example.com." then .ok ["10.0.0.1"]
      else if t = "b.example.com." then .ok ["10.0.0.2"]
      else .error (.msg "no such host")
    applyDeps := exApplyDepsOk
    updateStatus := fun _ => .ok () }

/-- The `required` object `exDepsBase` builds: asset + dns-suffix
annotation + the carried bootstrap address. -/
def exRequiredBoot : Endpoints :=
  { metadata :=
      { Name := "host-etcd"
        Namespace := TargetNamespace
        Annotations := [("alpha.installer.openshift.io/dns-suffix", "example.com")]
        Labels := [] }
    Subsets := [{ Addresses := [exBootAddr], NotReadyAddresses := [], Ports := [exPort] }] }

def exAddrA : EndpointAddress :=
  { IP := "10.0.0.1", Hostname := "etcd-0", NodeName := some "master-0" }

def exAddrB : EndpointAddress :=
  { IP := "10.0.0.2", Hostname := "etcd-1", NodeName := some "master-1" }

def exSubLhs : EndpointSubset :=
  { Addresses := [exAddrA, exAddrB, exBootAddr], NotReadyAddresses := [], Ports := [exPort] }

def exSubRhs : EndpointSubset :=
  { Addresses := [exBootAddr, exAddrB, exAddrA], NotReadyAddresses := [], Ports := [exPort] }

/-- Two addresses sharing (IP, Hostname) where one `NodeName` is nil:
sorting a list containing both dereferences the nil pointer. -/
def cexAddrNil : EndpointAddress := { IP := "10.0.0.7", Hostname := "etcd-2", NodeName := none }

def cexAddrNamed : EndpointAddress :=
  { IP := "10.0.0.7", Hostname := "etcd-2", NodeName := some "master-2" }

def cexSubLhs : EndpointSubset :=
  { Addresses := [cexAddrNil, cexAddrNamed], NotReadyAddresses := [], Ports := [exPort] }

def cexSubRhs : EndpointSubset :=
  { Addresses := [cexAddrNamed, cexAddrNil], NotReadyAddresses := [], Ports := [exPort] }

/-! ### The claims -/

/-- Claim C1: idempotence of reconcile - when the metadata merge changes
nothing and the existing subsets are semantically equal to the required
subsets, `applyEndpoints` returns nil and performs no store write (no
`Update`, no `Create`). -/
theorem claim_idempotent_apply (adeps : ApplyDeps) (existing required : Endpoints)
    (hget : adeps.getExisting = .ok existing)
    (hmeta : (EnsureObjectMeta existing.metadata required.metadata).2 = false)
    (hsub : endpointsSubsetsEqualGo existing.Subsets required.Subsets = some true) :
    applyEndpoints adeps required = (.ok (), []) :=
  applyEndpoints_noWrite adeps existing required hget hmeta hsub

/-- Witness for C1 at a concrete second-reconcile state. -/
theorem claim_idempotent_apply_witness :
    applyEndpoints exApplyDepsOk exRequiredBoot = (.ok (), []) :=
  claim_idempotent_apply exApplyDepsOk exExistingBoot exRequiredBoot rfl (by decide) (by decide)

/-- Claim C4 (as stated) is false: with two addresses sharing
(IP, Hostname) of which one has a nil `NodeName`, the subset lists are
permutations with matching not-ready and port lists, yet the equality
check hits the comparator's nil dereference (modelled `none`; the source
panics) instead of returning true. -/
theorem claim_order_independence_cex :
    cexSubLhs.Addresses.Perm cexSubRhs.Addresses ∧
    cexSubLhs.NotReadyAddresses = cexSubRhs.NotReadyAddresses ∧
    cexSubLhs.Ports = cexSubRhs.Ports ∧
    endpointSubsetEqualGo cexSubLhs cexSubRhs = none := by
  refine ⟨List.Perm.swap cexAddrNamed cexAddrNil [], rfl, rfl, ?_⟩
  decide

/-- Claim C4, amended: for subsets whose address lists are permutations
of each other (multisets of (IP, hostname, nodeRef) records) and whose
not-ready-address and port lists match, *provided* every nil-NodeName
address is the unique holder of its (IP, Hostname) pair in its list (the
well-definedness precondition of the comparator, cf. C10), the equality
check returns true; consequently, with an unchanged metadata merge, no
write occurs. -/
theorem claim_order_independence_amended (lhs rhs : EndpointSubset)
    (hperm : lhs.Addresses.Perm rhs.Addresses)
    (hnr : lhs.NotReadyAddresses = rhs.NotReadyAddresses)
    (hports : lhs.Ports = rhs.Ports)
    (huniq : nilNodeNameUnique lhs.Addresses) :
    endpointSubsetEqualGo lhs rhs = some true ∧
    ∀ adeps existing required, adeps.getExisting = .ok existing →
      existing.Subsets = [lhs] → required.Subsets = [rhs] →
      (EnsureObjectMeta existing.metadata required.metadata).2 = false →
      applyEndpoints adeps required = (.ok (), []) := by
  have heq : endpointSubsetEqualGo lhs rhs = some true :=
    endpointSubsetEqualGo_of_perm lhs rhs hperm (by rw [hnr]) (by rw [hports]) huniq
  refine ⟨heq, ?_⟩
  intro adeps existing required hget hL hR hmeta
  apply applyEndpoints_noWrite adeps existing required hget hmeta
  rw [hL, hR]
  exact endpointsSubsetsEqualGo_singleton lhs rhs heq

/-- Witness for amended C4: three addresses (two named, one bootstrap
with nil nodeRef) in reversed orders compare equal. -/
theorem claim_order_independence_amended_witness :
    endpointSubsetEqualGo exSubLhs exSubRhs = some true :=
  (claim_order_independence_amended exSubLhs exSubRhs (by decide) rfl rfl (by decide)).1

/-- Claim C10: the sort comparator's tie-break case dereferences
`NodeName` without a nil check - on any pair sharing (IP, Hostname)
with a nil `NodeName` on either side it faults (modelled `none`), and on
every other pair it is well defined. -/
theorem claim_comparator_nil_noderef (a b : EndpointAddress) :
    (a.IP = b.IP → a.Hostname = b.Hostname → (a.NodeName = none ∨ b.NodeName = none) →
      endpointAddressLessGo a b = none) ∧
    (a.IP ≠ b.IP ∨ a.Hostname ≠ b.Hostname ∨ (a.NodeName ≠ none ∧ b.NodeName ≠ none) →
      ∃ r, endpointAddressLessGo a b = some r) := by
  constructor
  · intro hip hhost hnil
    unfold endpointAddressLessGo
    rw [if_neg (by simp [hip]), if_neg (by simp [hhost])]
    rcases hnil with h | h
    · rw [h]
    · rw [h]
      cases a.NodeName <;> rfl
  · intro h
    unfold endpointAddressLessGo
    rcases h with h | h | ⟨ha, hb⟩
    · exact ⟨_, by rw [if_pos h]⟩
    · by_cases hip : a.IP ≠ b.IP
      · exact ⟨_, by rw [if_pos hip]⟩
      · exact ⟨_, by rw [if_neg hip, if_pos h]⟩
    · by_cases hip : a.IP ≠ b.IP
      · exact ⟨_, by rw [if_pos hip]⟩
      · by_cases hhost : a.Hostname ≠ b.Hostname
        · exact ⟨_, by rw [if_neg hip, if_pos hhost]⟩
        · obtain ⟨x, hx⟩ := Option.ne_none_iff_exists'.mp ha
          obtain ⟨y, hy⟩ := Option.ne_none_iff_exists'.mp hb
          exact ⟨_, by rw [if_neg hip, if_neg hhost, hx, hy]⟩

/-- Witness for C10: comparing the bootstrap entry with itself (equal
IP and hostname, nil nodeRef) dereferences the nil pointer. -/
theorem claim_comparator_nil_noderef_witness :
    endpointAddressLessGo exBootAddr exBootAddr = none :=
  (claim_comparator_nil_noderef exBootAddr exBootAddr).1 rfl rfl (Or.inl rfl)

/-- Claim C2: bootstrap preservation - whenever the builder stage
succeeds and the existing published object's first subset contains an
address with hostname exactly `etcd-bootstrap`, the computed `required`
object carries that exact record in its address list, for any topology
whatsoever. -/
theorem claim_bootstrap_preserved (deps : SyncDeps) (existing : Endpoints)
    (firstSubset : EndpointSubset) (rest : List EndpointSubset) (required : Endpoints)
    (hget : deps.getEndpoints = .ok existing)
    (hsub : existing.Subsets = firstSubset :: rest)
    (hbuild : syncHostEndpointsBuild deps = .ok required)
    (hboot : ∃ a ∈ firstSubset.Addresses, a.Hostname = "etcd-bootstrap") :
    ∃ bootstrap, bootstrap ∈ firstSubset.Addresses ∧
      bootstrap.Hostname = "etcd-bootstrap" ∧
      ∀ sub ∈ required.Subsets, bootstrap ∈ sub.Addresses := by
  have hfindSome : (firstSubset.Addresses.find? (fun a => a.Hostname == "etcd-bootstrap")).isSome := by
    obtain ⟨a, ha, hh⟩ := hboot
    exact List.find?_isSome.mpr ⟨a, ha, by simp [hh]⟩
  obtain ⟨b, hb⟩ := Option.isSome_iff_exists.mp hfindSome
  refine ⟨b, List.mem_of_find?_eq_some hb, by simpa using List.find?_some hb, ?_⟩
  unfold syncHostEndpointsBuild at hbuild
  rw [hget] at hbuild
  simp only [hsub, hb] at hbuild
  split at hbuild
  · exact absurd hbuild (by simp)
  · split at hbuild
    · exact absurd hbuild (by simp)
    · split at hbuild
      · exact absurd hbuild (by simp)
      · split at hbuild
        · exact absurd hbuild (by simp)
        · split at hbuild
          · exact absurd hbuild (by simp)
          · rcases GoResult.ok.inj hbuild.symm with h
            rw [h]
            intro sub hmem
            simp only [setFirstSubsetAddresses, hostEndpointsAsset] at hmem
            simp only [List.mem_singleton] at hmem
            rw [hmem]
            exact List.mem_append_right _ (List.mem_singleton.mpr rfl)

/-- The existing object with an empty `Subsets` list, and collaborators
that otherwise all succeed. -/
def exExistingNoSubsets : Endpoints :=
  { metadata := exExistingBoot.metadata, Subsets := [] }

def exDepsNoSubsets : SyncDeps := { exDepsBase with getEndpoints := .ok exExistingNoSubsets }

/-- Claim C9: implicit shape precondition - when the whole builder
stage before the bootstrap scan succeeds but the existing published
object has an empty `Subsets` list, the unguarded `existing.Subsets[0]`
access is out of range: the reconcile panics (and consequently performs
no write). -/
theorem claim_empty_subsets_panics (deps : SyncDeps) (existing : Endpoints)
    (d : String) (network : Network) (nodes : List Node) (addrs : List EndpointAddress)
    (hget : deps.getEndpoints = .ok existing)
    (hempty : existing.Subsets = [])
    (hdom : getEtcdDiscoveryDomain deps = .ok d)
    (hnet : deps.getNetwork = .ok network)
    (hnodes : deps.listMasterNodes = .ok nodes)
    (haddrs : buildNodeAddresses deps network d nodes = .ok addrs) :
    syncHostEndpoints deps =
      (.panic ("runtime error: index out of range [0] with length 0"), []) := by
  unfold syncHostEndpoints syncHostEndpointsBuild
  rw [hget]
  simp only [hdom, hnet, hnodes, haddrs, hempty]

/-- Witness for C9 at a concrete state with empty `Subsets`. -/
theorem claim_empty_subsets_panics_witness :
    syncHostEndpoints exDepsNoSubsets =
      (.panic ("runtime error: index out of range [0] with length 0"), []) :=
  claim_empty_subsets_panics exDepsNoSubsets exExistingNoSubsets "example.com"
    { dummy := () } [] [] rfl rfl rfl rfl rfl rfl

/-- Claim C5 (as stated) is false: with zero member addresses computed
from topology but a bootstrap entry present in the existing object, the
length check runs *after* the bootstrap append, so the reconcile does
not fail with `no etcd member nodes are ready` - it proceeds and
returns success. -/
theorem claim_empty_membership_cex :
    exDepsBase.listMasterNodes = .ok [] ∧
    syncHostEndpoints exDepsBase = (.ok (), []) := by
  constructor
  · rfl
  · decide

/-- Claim C5, amended: if the computed member addresses are empty
*including* the carried bootstrap entry (no master node produced an
address and the existing first subset holds no `etcd-bootstrap`
address), the reconcile fails with `no etcd member nodes are ready` and
the store is not written. -/
theorem claim_empty_membership_amended (deps : SyncDeps) (existing : Endpoints)
    (firstSubset : EndpointSubset) (rest : List EndpointSubset)
    (d : String) (network : Network) (nodes : List Node)
    (hget : deps.getEndpoints = .ok existing)
    (hdom : getEtcdDiscoveryDomain deps = .ok d)
    (hnet : deps.getNetwork = .ok network)
    (hnodes : deps.listMasterNodes = .ok nodes)
    (haddrs : buildNodeAddresses deps network d nodes = .ok [])
    (hsub : existing.Subsets = firstSubset :: rest)
    (hnoboot : firstSubset.Addresses.find? (fun a => a.Hostname == "etcd-bootstrap") = none) :
    syncHostEndpoints deps = (.err (.msg ("no etcd member nodes are ready")), []) := by
  unfold syncHostEndpoints syncHostEndpointsBuild
  rw [hget]
  simp only [hdom, hnet, hnodes, haddrs, hsub, hnoboot, List.length_nil]
  rfl

/-- An existing object with one subset holding no addresses at all. -/
def exExistingEmptyAddrs : Endpoints :=
  { metadata := exExistingBoot.metadata
    Subsets := [{ Addresses := [], NotReadyAddresses := [], Ports := [exPort] }] }

def exDepsEmptyAddrs : SyncDeps := { exDepsBase with getEndpoints := .ok exExistingEmptyAddrs }

/-- Witness for amended C5: zero nodes and no bootstrap entry. -/
theorem claim_empty_membership_amended_witness :
    syncHostEndpoints exDepsEmptyAddrs =
      (.err (.msg ("no etcd member nodes are ready")), []) :=
  claim_empty_membership_amended exDepsEmptyAddrs exExistingEmptyAddrs
    { Addresses := [], NotReadyAddresses := [], Ports := [exPort] } [] "example.com"
    { dummy := () } [] rfl rfl rfl rfl rfl rfl rfl

/-- Claim C3: failure atomicity - every builder-stage error (existing
read, discovery domain missing/unreadable, network config read, node
list, missing node internal IP, DNS resolution) aborts
`syncHostEndpoints` with that error before `applyEndpoints` runs, so no
create or update of the store is attempted. -/
theorem claim_failure_atomicity (deps : SyncDeps) :
    (∀ e, syncHostEndpointsBuild deps = .err e → syncHostEndpoints deps = (.err e, [])) ∧
    (∀ e, deps.getEndpoints = .error e → syncHostEndpointsBuild deps = .err e) ∧
    (∀ existing e, deps.getEndpoints = .ok existing →
      getEtcdDiscoveryDomain deps = .error e →
      syncHostEndpointsBuild deps =
        .err (.msg ("unable to determine etcd discovery domain: " ++ e.text))) ∧
    (∀ e, deps.getInfrastructure = .error e → getEtcdDiscoveryDomain deps = .error e) ∧
    (∀ infrastructure, deps.getInfrastructure = .ok infrastructure →
      infrastructure.Status.EtcdDiscoveryDomain.length = 0 →
      getEtcdDiscoveryDomain deps =
        .error (.msg ("infrastructures.config.openshit.io/cluster missing .status.etcdDiscoveryDomain"))) ∧
    (∀ existing d e, deps.getEndpoints = .ok existing → getEtcdDiscoveryDomain deps = .ok d →
      deps.getNetwork = .error e → syncHostEndpointsBuild deps = .err e) ∧
    (∀ existing d network e, deps.getEndpoints = .ok existing →
      getEtcdDiscoveryDomain deps = .ok d → deps.getNetwork = .ok network →
      deps.listMasterNodes = .error e →
      syncHostEndpointsBuild deps =
        .err (.msg ("unable to list expected etcd member nodes: " ++ e.text))) ∧
    (∀ existing d network nodes e, deps.getEndpoints = .ok existing →
      getEtcdDiscoveryDomain deps = .ok d → deps.getNetwork = .ok network →
      deps.listMasterNodes = .ok nodes → buildNodeAddresses deps network d nodes = .error e →
      syncHostEndpointsBuild deps = .err e) ∧
    (∀ network d node rest e, deps.getPreferredInternalIP network node = .error e →
      buildNodeAddresses deps network d (node :: rest) = .error e) ∧
    (∀ network d node rest, deps.getPreferredInternalIP network node = .ok "" →
      buildNodeAddresses deps network d (node :: rest) =
        .error (.msg ("unable to determine internal ip address for node " ++ node.Name))) ∧
    (∀ network d node rest ip e, deps.getPreferredInternalIP network node = .ok ip →
      ip.length ≠ 0 → getEtcdDNSName deps d ip = .error e →
      buildNodeAddresses deps network d (node :: rest) =
        .error (.msg ("unable to determine etcd member dns name for node " ++ node.Name
          ++ ": " ++ e.text))) := by
  refine ⟨?_, ?_, ?_, ?_, ?_, ?_, ?_, ?_, ?_, ?_, ?_⟩
  · intro e h
    unfold syncHostEndpoints
    rw [h]
  · intro e h
    unfold syncHostEndpointsBuild
    rw [h]
  · intro existing e hget hdom
    unfold syncHostEndpointsBuild
    rw [hget]
    simp only [hdom]
  · intro e h
    unfold getEtcdDiscoveryDomain
    rw [h]
  · intro infrastructure hget hlen
    unfold getEtcdDiscoveryDomain
    rw [hget]
    simp only [hlen, if_pos]
  · intro existing d e hget hdom hnet
    unfold syncHostEndpointsBuild
    rw [hget]
    simp only [hdom, hnet]
  · intro existing d network e hget hdom hnet hnodes
    unfold syncHostEndpointsBuild
    rw [hget]
    simp only [hdom, hnet, hnodes]
  · intro existing d network nodes e hget hdom hnet hnodes haddrs
    unfold syncHostEndpointsBuild
    rw [hget]
    simp only [hdom, hnet, hnodes, haddrs]
  · intro network d node rest e hip
    unfold buildNodeAddresses
    rw [hip]
  · intro network d node rest hip
    unfold buildNodeAddresses
    rw [hip]
    rfl
  · intro network d node rest ip e hip hlen hdns
    unfold buildNodeAddresses
    rw [hip]
    simp [hlen, hdns]

def exDepsGetFail : SyncDeps :=
  { exDepsBase with getEndpoints := .error (.msg "etcdserver: request timed out") }

/-- Witness for C3: a failing existing-object read aborts the reconcile
with that error and zero writes. -/
theorem claim_failure_atomicity_witness :
    syncHostEndpoints exDepsGetFail = (.err (.msg ("etcdserver: request timed out")), []) :=
  (claim_failure_atomicity exDepsGetFail).1 _
    ((claim_failure_atomicity exDepsGetFail).2.1 _ rfl)

def exNode1 : Node := { Name := "node-1" }

/-- Collaborators for the DNS-matching scenario: SRV targets
`a.example.com.` (forward-resolving to 10.0.0.1) and `b.example.com.`
(forward-resolving to 10.0.0.2), one master node whose internal IP is
10.0.0.1. -/
def exDepsDns : SyncDeps := { exDepsBase with listMasterNodes := .ok [exNode1] }

/-- Claim C6: DNS matching - with SRV targets a.example.com (10.0.0.1)
and b.example.com (10.0.0.2) and node IP 10.0.0.1, `reverseLookup`
returns the matching target with its trailing dot trimmed, and the
endpoint record built for the node carries hostname "a" (the
"." + discovery-domain suffix stripped). -/
theorem claim_dns_matching :
    reverseLookup exDepsDns.lookupSRV exDepsDns.lookupHost
      "etcd-server-ssl" "tcp" "example.com" "10.0.0.1" = .ok "a.example.com" ∧
    buildNodeAddresses exDepsDns { dummy := () } "example.com" [exNode1] =
      .ok [{ IP := "10.0.0.1", Hostname := "a", NodeName := some "node-1" }] := by
  constructor
  · rfl
  · rfl

def exApplyDepsNotFound : ApplyDeps :=
  { getExisting := .error .notFound
    createResult := fun e => .ok e
    updateResult := fun e => .ok e }

/-- Claim C7 (as stated) is false: in the not-found case the create is
performed, but because the inner `_, err := ...Create(...)` shadows the
outer lister error, a *successful* create still makes `applyEndpoints`
return the original not-found error rather than nil. -/
theorem claim_create_on_notfound_cex :
    applyEndpoints exApplyDepsNotFound hostEndpointsAsset =
      (.err .notFound, [.create hostEndpointsAsset]) ∧
    (applyEndpoints exApplyDepsNotFound hostEndpointsAsset).1 ≠ .ok () := by
  constructor
  · rfl
  · decide

/-- Claim C7, amended: when the read reports not-found, `applyEndpoints`
creates the object from `required` (emitting the created notification);
a failing create surfaces the create error, but a successful create
still returns the original not-found error (shadowed `err`), so the
caller always sees an error in the not-found case. -/
theorem claim_create_on_notfound_amended (adeps : ApplyDeps) (required : Endpoints)
    (hget : adeps.getExisting = .error .notFound) :
    (∀ created, adeps.createResult required = .ok created →
      applyEndpoints adeps required = (.err .notFound, [.create required])) ∧
    (∀ e, adeps.createResult required = .error e →
      applyEndpoints adeps required = (.err e, [.create required])) := by
  constructor
  · intro created hc
    unfold applyEndpoints
    rw [hget]
    simp only [IsNotFound, if_pos, hc]
  · intro e hc
    unfold applyEndpoints
    rw [hget]
    simp only [IsNotFound, if_pos, hc]

/-- Witness for amended C7. -/
theorem claim_create_on_notfound_amended_witness :
    applyEndpoints exApplyDepsNotFound exExistingBoot =
      (.err .notFound, [.create exExistingBoot]) :=
  (claim_create_on_notfound_amended exApplyDepsNotFound exExistingBoot rfl).1
    exExistingBoot rfl

/-- Collaborators where the reconcile itself succeeds but the healthy
status write fails. -/
def exDepsStatusFail : SyncDeps :=
  { exDepsBase with updateStatus := fun _ => .error (.msg "status write refused") }

/-- Claim C8 (as stated) is false: on a *successful* reconcile whose
healthy status write fails, `sync` returns the status-write error
instead of nil, so the status write does change the returned result. -/
theorem claim_status_writes_cex :
    syncHostEndpoints exDepsStatusFail = (.ok (), []) ∧
    sync exDepsStatusFail = (.err (.msg ("status write refused")), [healthyCondition], []) := by
  constructor
  · decide
  · decide

/-- Claim C8, amended: on reconcile failure `sync` returns exactly the
reconcile error - with the HostEndpointsDegraded=True /
ErrorUpdatingHostEndpoints condition carrying the error text -
regardless of the status-write outcome (a failing degraded write is
only warned about); on reconcile success, however, `sync` returns nil
only when the healthy status write succeeds, and returns the
status-write error when it fails. -/
theorem claim_status_writes_amended (deps : SyncDeps) :
    (∀ e writes, syncHostEndpoints deps = (.err e, writes) →
      sync deps = (.err e, [degradedCondition e], writes)) ∧
    (∀ writes, syncHostEndpoints deps = (.ok (), writes) →
      deps.updateStatus healthyCondition = .ok () →
      sync deps = (.ok (), [healthyCondition], writes)) ∧
    (∀ writes ue, syncHostEndpoints deps = (.ok (), writes) →
      deps.updateStatus healthyCondition = .error ue →
      sync deps = (.err ue, [healthyCondition], writes)) := by
  refine ⟨?_, ?_, ?_⟩
  · intro e writes h
    unfold sync
    rw [h]
  · intro writes h hs
    unfold sync
    rw [h]
    simp only [hs]
  · intro writes ue h hs
    unfold sync
    rw [h]
    simp only [hs]

/-- Witness for amended C8: failure path keeps the original error with
the degraded condition. -/
theorem claim_status_writes_amended_witness :
    sync exDepsGetFail = (.err (.msg ("etcdserver: request timed out")),
      [degradedCondition (.msg ("etcdserver: request timed out"))], []) :=
  (claim_status_writes_amended exDepsGetFail).1 _ [] (by decide)

/-- Witness for C2: with zero master nodes, the bootstrap entry of the
existing object is still carried into the built `required` object. -/
theorem claim_bootstrap_preserved_witness :
    ∃ bootstrap, bootstrap ∈ exSubsetBoot.Addresses ∧
      bootstrap.Hostname = "etcd-bootstrap" ∧
      ∀ sub ∈ exRequiredBoot.Subsets, bootstrap ∈ sub.Addresses :=
  claim_bootstrap_preserved exDepsBase exExistingBoot exSubsetBoot [] exRequiredBoot
    rfl rfl (by decide) (by decide)
